import Mathlib

/-!
Verification of the vote-tracker backend's reconciliation and HTTP logic.

The definitions below are a shallow embedding of the JavaScript sources:
the deduplication script and register-number repair script, the
spreadsheet import script (import-family-classification.js), and the
Express route handlers (server.js).  The external Supabase store is
modelled as an in-memory list of rows ordered as the store returns them
(ascending `id` where the code requests that order); each store call is
a pure function of that list.
-/

/-- A spreadsheet or database cell value as seen by the JavaScript code:
either a string or a number.  JavaScript truthiness on these values is
what the import script's `if (originalId && ...)` and `family || null`
tests use. -/
inductive CellVal where
  | s : String → CellVal
  | n : Int → CellVal
deriving DecidableEq, Repr

/-- JavaScript truthiness of a cell value: the empty string and the
number 0 are falsy, everything else is truthy. -/
def CellVal.truthy : CellVal → Bool
  | .s v => v ≠ ""
  | .n v => v ≠ 0

/-- A row of the `voters` table.  Nullable columns are `Option`s. -/
structure Voter where
  id : Nat
  original_id : Option CellVal
  full_name : Option String
  father_name : Option String
  register_number : Option String
  family : Option CellVal
  classification : Option CellVal
  has_voted : Bool
  voted_at : Option String
  religion : Option String
deriving DecidableEq, Repr

/-- A voter row with the given id and every other column empty; concrete
examples below override the fields they care about. -/
def mkVoter (id : Nat) : Voter :=
  ⟨id, none, none, none, none, none, none, false, none, none⟩

/-- The scripts' `const pageSize = 1000`. -/
def pageSize : Nat := 1000

/-- The paginated fetch loop shared by remove-duplicates and
import-family-classification:

    while (hasMore) \x7b
      data = range(from, from + pageSize - 1)   // ordered by id asc
      allVoters = allVoters.concat(data)
      hasMore = data.length === pageSize
      from += pageSize
    \x7d

The store answers `range(start, start+P-1)` with the rows of the ordered
table `vs` in that index window, i.e. `(vs.drop start).take P`.  The
second component counts the windowed requests issued.  The `0 < P`
conjunct in the guard only serves termination; both scripts fix
`P = pageSize = 1000`. -/
def fetchPages (vs : List Voter) (P : Nat) (start : Nat) : List Voter × Nat :=
  if h : ((vs.drop start).take P).length = P ∧ 0 < P then
    let r := fetchPages vs P (start + P)
    ((vs.drop start).take P ++ r.1, r.2 + 1)
  else
    ((vs.drop start).take P, 1)
termination_by vs.length - start
decreasing_by
  simp only [List.length_take, List.length_drop] at h
  omega

/-- An unranged `select('*')` against a store that caps the result size
at `B` rows per call: it returns the first `min N B` rows of the ordered
table.  This models the single (non-paginated) fetch issued by
`fixRegisterNumbers`. -/
def singleFetchAll (vs : List Voter) (B : Nat) : List Voter :=
  vs.take B

/-- The fetch loop returns every row from `start` on, and issues
`(N - start) / P + 1` requests: one request per full window plus the
final short (possibly empty) page that stops the loop. -/
theorem fetchPages_spec (vs : List Voter) (P start : Nat) (hP : 0 < P) :
    (fetchPages vs P start).1 = vs.drop start ∧
      (fetchPages vs P start).2 = (vs.length - start) / P + 1 := by
  have hmeas : ∀ n (start : Nat), vs.length - start ≤ n →
      (fetchPages vs P start).1 = vs.drop start ∧
        (fetchPages vs P start).2 = (vs.length - start) / P + 1 := by
    intro n
    induction n with
    | zero =>
      intro start hle
      unfold fetchPages
      have hlen : vs.length - start = 0 := Nat.le_zero.mp hle
      have hpage : ((vs.drop start).take P).length = min P (vs.length - start) := by
        simp [List.length_take, List.length_drop]
      by_cases hfull : ((vs.drop start).take P).length = P ∧ 0 < P
      · exfalso
        rw [hpage, hlen] at hfull
        omega
      · simp only [dif_neg hfull]
        constructor
        · have : vs.length ≤ start := by omega
          rw [List.take_of_length_le]
          simp [List.length_drop]
          omega
        · rw [hlen]
          simp [Nat.zero_div]
    | succ n ih =>
      intro start hle
      unfold fetchPages
      have hpage : ((vs.drop start).take P).length = min P (vs.length - start) := by
        simp [List.length_take, List.length_drop]
      by_cases hfull : ((vs.drop start).take P).length = P ∧ 0 < P
      · have hPle : P ≤ vs.length - start := by
          rw [hpage] at hfull
          omega
        have hrec := ih (start + P) (by omega)
        simp only [dif_pos hfull]
        constructor
        · show (vs.drop start).take P ++ (fetchPages vs P (start + P)).1 = vs.drop start
          rw [hrec.1]
          have : vs.drop (start + P) = (vs.drop start).drop P := by
            rw [List.drop_drop]
          rw [this, List.take_append_drop]
        · show (fetchPages vs P (start + P)).2 + 1 = (vs.length - start) / P + 1
          rw [hrec.2]
          have hsub : vs.length - (start + P) = (vs.length - start) - P := by omega
          rw [hsub]
          have := Nat.div_eq_sub_div hP hPle
          omega
      · have hshort : vs.length - start < P := by
          rw [hpage] at hfull
          omega
        simp only [dif_neg hfull]
        constructor
        · show (vs.drop start).take P = vs.drop start
          apply List.take_of_length_le
          simp [List.length_drop]
          omega
        · show 1 = (vs.length - start) / P + 1
          rw [Nat.div_eq_of_lt hshort]
  exact hmeas (vs.length - start) start le_rfl

/-- C1 (counterexample): for an empty store (N = 0) the bulk fetch loop
still issues one windowed request, whereas the claim's ceil(N/P) formula
gives zero requests.  The same off-by-one occurs at every exact multiple
of the page size. -/
theorem bulkFetch_empty_store_request_count :
    (fetchPages ([] : List Voter) pageSize 0).2 = 1 ∧
      ((0 : Nat) + pageSize - 1) / pageSize = 0 := by
  constructor
  · unfold fetchPages
    norm_num [pageSize]
  · norm_num [pageSize]

/-- C1 (amended): for a store with N records and the fixed page size
P = 1000, the loop's concatenated pages equal the full ordered record
set, and the loop issues N / P + 1 windowed requests: this equals
ceil(N/P) whenever P does not divide N, and is one more than ceil(N/P)
(a final empty page that stops the loop) when P divides N, including
N = 0.  The loop stops exactly when a returned page is shorter than the
requested size, which the request-count formula reflects. -/
theorem bulkFetch_concat_and_request_count (vs : List Voter) :
    (fetchPages vs pageSize 0).1 = vs
      ∧ (fetchPages vs pageSize 0).2 = vs.length / pageSize + 1
      ∧ (vs.length % pageSize ≠ 0 →
          (fetchPages vs pageSize 0).2 = (vs.length + pageSize - 1) / pageSize) := by
  have h := fetchPages_spec vs pageSize 0 (by norm_num [pageSize])
  refine ⟨by simpa using h.1, by simpa using h.2, ?_⟩
  intro hmod
  have h2 : (fetchPages vs pageSize 0).2 = vs.length / pageSize + 1 := by
    simpa using h.2
  rw [h2]
  simp only [pageSize] at hmod ⊢
  omega

/-- C1 (witness): a one-record store, where 1000 does not divide N = 1,
so the amended ceiling clause applies and gives a single request. -/
theorem bulkFetch_concat_and_request_count_witness :
    ([mkVoter 1].length % pageSize ≠ 0) ∧
      (fetchPages [mkVoter 1] pageSize 0).2 =
        ([mkVoter 1].length + pageSize - 1) / pageSize :=
  ⟨by norm_num [pageSize], (bulkFetch_concat_and_request_count [mkVoter 1]).2.2
    (by norm_num [pageSize])⟩

/-- JavaScript template-literal rendering of a nullable text column:
a SQL NULL interpolates as the string "null". -/
def renderNull : Option String → String
  | some s => s
  | none => "null"

/-- The characters String.prototype.trim removes, restricted to the
ASCII whitespace the repository's data can contain. -/
def isJsSpace (c : Char) : Bool :=
  c = ' ' || c = '\t' || c = '\n' || c = '\r'

/-- String.prototype.toLowerCase, on the ASCII range (the lowering of a
character is per-character and independent of its neighbours). -/
def jsToLower (s : String) : String :=
  ⟨s.data.map Char.toLower⟩

/-- String.prototype.trim: remove whitespace from both outer ends only. -/
def jsTrim (s : String) : String :=
  ⟨((s.data.dropWhile isJsSpace).reverse.dropWhile isJsSpace).reverse⟩

/-- The grouping key of the deduplication script, line 42 of
remove-duplicates:

    const key = (full_name)_(father_name) .toLowerCase().trim();

i.e. the two rendered fields joined by an underscore, then the whole
concatenation lowercased and trimmed at its outer ends only. -/
def dedupKey (v : Voter) : String :=
  jsTrim (jsToLower (renderNull v.full_name ++ "_" ++ renderNull v.father_name))

example :
    dedupKey { mkVoter 1 with full_name := some "Ab ", father_name := some "C" }
      = "ab _c" := by decide

example :
    dedupKey { mkVoter 1 with full_name := some " Ab", father_name := none }
      = "ab_null" := by decide

/-- The deletion plan of removeDuplicates (lines 49-81): the script
groups the id-ascending snapshot by `dedupKey`, keeps each group's first
member and pushes the ids of all later members into `idsToDelete`.
Scanning the snapshot in order with the list `seen` of keys already
encountered, a record's id is marked exactly when its key has been seen
before, i.e. when it is not the first member of its group.  The script
pushes ids group by group rather than in scan order, but the deletion
batches act by set membership (`.in('id', batch)`), so the plan is the
set of marked ids; this definition lists that set in scan order. -/
def dedupDeleteIds : List Voter → List String → List Nat
  | [], _ => []
  | v :: rest, seen =>
    if dedupKey v ∈ seen then v.id :: dedupDeleteIds rest seen
    else dedupDeleteIds rest (dedupKey v :: seen)

/-- Membership in the deletion plan: an id is marked exactly when it is
the id of a record whose key already occurred, either in the `seen`
accumulator or on an earlier record of the snapshot. -/
theorem dedupDeleteIds_mem (vs : List Voter) (seen : List String) (x : Nat) :
    x ∈ dedupDeleteIds vs seen ↔
      ∃ pre v post, vs = pre ++ v :: post ∧ x = v.id ∧
        (dedupKey v ∈ seen ∨ dedupKey v ∈ pre.map dedupKey) := by
  induction vs generalizing seen with
  | nil => simp [dedupDeleteIds]
  | cons w rest ih =>
    by_cases hw : dedupKey w ∈ seen
    · simp only [dedupDeleteIds, if_pos hw, List.mem_cons, ih]
      constructor
      · rintro (rfl | ⟨pre, v, post, heq, rfl, hcond⟩)
        · exact ⟨[], w, rest, rfl, rfl, Or.inl hw⟩
        · refine ⟨w :: pre, v, post, by rw [heq]; rfl, rfl, ?_⟩
          simp only [List.map_cons, List.mem_cons]
          tauto
      · rintro ⟨pre, v, post, heq, rfl, hcond⟩
        cases pre with
        | nil =>
          injection heq with h1 h2
          subst h1
          exact Or.inl rfl
        | cons p pre' =>
          injection heq with h1 h2
          subst h1
          refine Or.inr ⟨pre', v, post, h2, rfl, ?_⟩
          simp only [List.map_cons, List.mem_cons] at hcond
          rcases hcond with h | h | h
          · exact Or.inl h
          · exact Or.inl (h ▸ hw)
          · exact Or.inr h
    · simp only [dedupDeleteIds, if_neg hw, ih]
      constructor
      · rintro ⟨pre, v, post, heq, rfl, hcond⟩
        refine ⟨w :: pre, v, post, by rw [heq]; rfl, rfl, ?_⟩
        simp only [List.mem_cons] at hcond
        simp only [List.map_cons, List.mem_cons]
        tauto
      · rintro ⟨pre, v, post, heq, rfl, hcond⟩
        cases pre with
        | nil =>
          injection heq with h1 h2
          subst h1
          rcases hcond with h | h
          · exact absurd h hw
          · simp at h
        | cons p pre' =>
          injection heq with h1 h2
          subst h1
          refine ⟨pre', v, post, h2, rfl, ?_⟩
          simp only [List.map_cons, List.mem_cons] at hcond
          simp only [List.mem_cons]
          tauto

/-- C4 (confirmed): on an id-ascending snapshot, the deduplication plan
marks exactly the ids of records that are not the minimum-id member of
their key group: an id is in the plan iff it belongs to a record of the
snapshot that shares its grouping key with some strictly-smaller-id
record.  In particular singleton groups contribute nothing and each
duplicate group contributes all members except its lowest-id one. -/
theorem dedup_marks_exactly_non_canonical (vs : List Voter)
    (hsorted : vs.Pairwise (fun a b => a.id < b.id)) (x : Nat) :
    x ∈ dedupDeleteIds vs [] ↔
      ∃ v ∈ vs, x = v.id ∧ ∃ w ∈ vs, dedupKey w = dedupKey v ∧ w.id < v.id := by
  rw [dedupDeleteIds_mem]
  constructor
  · rintro ⟨pre, v, post, rfl, rfl, hcond⟩
    rcases hcond with h | h
    · simp at h
    · obtain ⟨w, hwpre, hkey⟩ := List.mem_map.mp h
      have hpw := List.pairwise_append.mp hsorted
      refine ⟨v, by simp, rfl, w, ?_, hkey, ?_⟩
      · simp [hwpre]
      · exact hpw.2.2 w hwpre v (by simp)
  · rintro ⟨v, hv, rfl, w, hw, hkey, hlt⟩
    obtain ⟨pre, post, rfl⟩ := List.append_of_mem hv
    refine ⟨pre, v, post, rfl, rfl, Or.inr ?_⟩
    have hpw := List.pairwise_append.mp hsorted
    rcases List.mem_append.mp hw with h | h
    · exact List.mem_map.mpr ⟨w, h, hkey⟩
    · rcases List.mem_cons.mp h with rfl | h
      · omega
      · have : v.id < w.id := (List.pairwise_cons.mp hpw.2.1).1 w h
        omega

/-- A pair of records that removeDuplicates treats as duplicates: same
rendered name key, ids 1 and 2. -/
def dupFirst : Voter :=
  { mkVoter 1 with full_name := some "Ali", father_name := some "Hassan" }

/-- The higher-id duplicate of `dupFirst`. -/
def dupSecond : Voter :=
  { mkVoter 2 with full_name := some "ali", father_name := some "hassan" }

/-- C4 (witness): on the two-record duplicate store the plan marks id 2,
and indeed id 2 is the non-minimal member of its group. -/
theorem dedup_marks_exactly_non_canonical_witness :
    ([dupFirst, dupSecond].Pairwise (fun a b => a.id < b.id)) ∧
      ((2 : Nat) ∈ dedupDeleteIds [dupFirst, dupSecond] [] ↔
        ∃ v ∈ [dupFirst, dupSecond], (2 : Nat) = v.id ∧
          ∃ w ∈ [dupFirst, dupSecond], dedupKey w = dedupKey v ∧ w.id < v.id) :=
  ⟨by decide, dedup_marks_exactly_non_canonical [dupFirst, dupSecond] (by decide) 2⟩

/-- Every id in the deletion plan is the id of some snapshot record. -/
theorem dedupDeleteIds_sub_ids (vs : List Voter) (seen : List String) (x : Nat)
    (h : x ∈ dedupDeleteIds vs seen) : x ∈ vs.map Voter.id := by
  obtain ⟨pre, v, post, rfl, rfl, -⟩ := (dedupDeleteIds_mem vs seen x).mp h
  simp

/-- The records surviving a dedup run have pairwise-distinct keys, none
of which lies in the `seen` accumulator. -/
theorem dedup_survivors_nodup_keys (vs : List Voter) (seen : List String)
    (hids : (vs.map Voter.id).Nodup) :
    ((vs.filter (fun v => v.id ∉ dedupDeleteIds vs seen)).map dedupKey).Nodup ∧
      ∀ v ∈ vs.filter (fun v => v.id ∉ dedupDeleteIds vs seen),
        dedupKey v ∉ seen := by
  induction vs generalizing seen with
  | nil => simp
  | cons v rest ih =>
    have hvid : v.id ∉ rest.map Voter.id := by
      simp only [List.map_cons, List.nodup_cons] at hids
      exact hids.1
    have hids' : (rest.map Voter.id).Nodup := by
      simp only [List.map_cons, List.nodup_cons] at hids
      exact hids.2
    by_cases hw : dedupKey v ∈ seen
    · have hplan : dedupDeleteIds (v :: rest) seen = v.id :: dedupDeleteIds rest seen := by
        simp [dedupDeleteIds, hw]
      have hveq : (fun w => decide (w.id ∉ dedupDeleteIds (v :: rest) seen)) v = false := by
        simp [hplan]
      have hcongr : rest.filter (fun w => w.id ∉ dedupDeleteIds (v :: rest) seen) =
          rest.filter (fun w => w.id ∉ dedupDeleteIds rest seen) := by
        apply List.filter_congr
        intro w hwmem
        have : w.id ≠ v.id := by
          intro heq
          exact hvid (heq ▸ List.mem_map.mpr ⟨w, hwmem, rfl⟩)
        simp [hplan, this]
      rw [List.filter_cons_of_neg (by simp [hplan]), hcongr]
      exact ih seen hids'
    · have hplan : dedupDeleteIds (v :: rest) seen =
          dedupDeleteIds rest (dedupKey v :: seen) := by
        simp [dedupDeleteIds, hw]
      have hkeep : v.id ∉ dedupDeleteIds (v :: rest) seen := by
        rw [hplan]
        intro hmem
        exact hvid (dedupDeleteIds_sub_ids rest _ v.id hmem)
      have hcongr : rest.filter (fun w => w.id ∉ dedupDeleteIds (v :: rest) seen) =
          rest.filter (fun w => w.id ∉ dedupDeleteIds rest (dedupKey v :: seen)) := by
        apply List.filter_congr
        intro w _
        simp [hplan]
      rw [List.filter_cons_of_pos (by simpa using hkeep), hcongr]
      obtain ⟨hnd, hout⟩ := ih (dedupKey v :: seen) hids'
      refine ⟨?_, ?_⟩
      · simp only [List.map_cons, List.nodup_cons]
        refine ⟨?_, hnd⟩
        intro hmem
        obtain ⟨w, hwmem, hkeq⟩ := List.mem_map.mp hmem
        have := hout w hwmem
        simp [hkeq] at this
      · intro w hwmem
        rcases List.mem_cons.mp hwmem with rfl | hwmem
        · exact hw
        · have := hout w hwmem
          simp only [List.mem_cons] at this
          tauto

/-- A list of records with pairwise-distinct keys, none already seen,
yields an empty deletion plan. -/
theorem dedupDeleteIds_eq_nil (l : List Voter) (seen : List String)
    (hk : (l.map dedupKey).Nodup) (hs : ∀ v ∈ l, dedupKey v ∉ seen) :
    dedupDeleteIds l seen = [] := by
  induction l generalizing seen with
  | nil => rfl
  | cons v rest ih =>
    simp only [List.map_cons, List.nodup_cons] at hk
    have hv : dedupKey v ∉ seen := hs v (by simp)
    simp only [dedupDeleteIds, if_neg hv]
    refine ih _ hk.2 ?_
    intro w hw
    simp only [List.mem_cons]
    rintro (heq | hmem)
    · exact hk.1 (heq ▸ List.mem_map.mpr ⟨w, hw, rfl⟩)
    · exact hs w (by simp [hw]) hmem

/-- C6 (confirmed): the dedup plan computation is deterministic (it is a
pure function of the snapshot) and idempotent: on the table state left
by applying a first run's plan (deleting the marked ids), a second run
computes an empty deletion set, provided record ids are distinct. -/
theorem dedup_idempotent (vs : List Voter) (hids : (vs.map Voter.id).Nodup) :
    dedupDeleteIds (vs.filter (fun v => v.id ∉ dedupDeleteIds vs [])) [] = [] := by
  obtain ⟨hnd, -⟩ := dedup_survivors_nodup_keys vs [] hids
  exact dedupDeleteIds_eq_nil _ _ hnd (by simp)

/-- C6 (witness): on the two-record duplicate store the first run marks
id 2 and the second run, on the surviving single record, marks nothing. -/
theorem dedup_idempotent_witness :
    (([dupFirst, dupSecond].map Voter.id).Nodup) ∧
      dedupDeleteIds
        ([dupFirst, dupSecond].filter
          (fun v => v.id ∉ dedupDeleteIds [dupFirst, dupSecond] [])) [] = [] :=
  ⟨by decide, dedup_idempotent [dupFirst, dupSecond] (by decide)⟩

/-- Normalization the spec's words describe for a single name field:
lowercase the field, then trim it; a NULL field stays NULL.  Used only
to compare the spec's per-field reading against the code's key. -/
def fieldNorm (o : Option String) : Option String :=
  o.map (fun s => jsTrim (jsToLower s))

/-- Equality of the lowercase-trimmed (full_name, father_name) pairs,
as the claim words the grouping criterion. -/
def specSamePair (a b : Voter) : Prop :=
  fieldNorm a.full_name = fieldNorm b.full_name ∧
    fieldNorm a.father_name = fieldNorm b.father_name

instance (a b : Voter) : Decidable (specSamePair a b) := by
  unfold specSamePair
  infer_instance

/-- Records whose key collides although their field pairs differ: the
underscore separator is ambiguous when a name itself contains an
underscore. -/
def underscoreA : Voter :=
  { mkVoter 1 with full_name := some "x_y", father_name := some "z" }

/-- Companion record to `underscoreA`: different fields, same key. -/
def underscoreB : Voter :=
  { mkVoter 2 with full_name := some "x", father_name := some "y_z" }

/-- Records whose field pairs agree after per-field trimming but whose
keys differ: the code trims only the outer ends of the concatenation,
so interior whitespace next to the separator survives. -/
def innerSpaceA : Voter :=
  { mkVoter 3 with full_name := some "x ", father_name := some "y" }

/-- Companion record to `innerSpaceA`: same trimmed fields, other key. -/
def innerSpaceB : Voter :=
  { mkVoter 4 with full_name := some "x", father_name := some "y" }

/-- C5 (counterexample): the grouping key does not coincide with
equality of the lowercase-trimmed field pairs, in either direction.
`underscoreA`/`underscoreB` share the key "x_y_z" with different field
pairs; `innerSpaceA`/`innerSpaceB` have equal trimmed field pairs but
keys "x _y" and "x_y". -/
theorem dedupKey_differs_from_field_pair :
    (dedupKey underscoreA = dedupKey underscoreB ∧
        ¬ specSamePair underscoreA underscoreB) ∧
      (specSamePair innerSpaceA innerSpaceB ∧
        dedupKey innerSpaceA ≠ dedupKey innerSpaceB) := by
  decide

/-- Lowercasing maps over concatenation character by character. -/
theorem jsToLower_append (s t : String) :
    jsToLower (s ++ t) = jsToLower s ++ jsToLower t := by
  cases s with
  | mk sd =>
    cases t with
    | mk td =>
      exact congrArg String.mk (List.map_append _ sd td)

/-- C5 (amended): two records receive the same grouping key exactly when
the lowercased concatenations full_name_father_name agree after
trimming the outer ends of the whole string; in particular records whose
rendered fields agree after lowercasing alone (no trimming needed)
always share a key, but per-field trimmed equality is neither necessary
(underscore ambiguity) nor sufficient (whitespace at the separator). -/
theorem dedupKey_eq_of_lower_fields_eq (a b : Voter)
    (hf : jsToLower (renderNull a.full_name) = jsToLower (renderNull b.full_name))
    (hg : jsToLower (renderNull a.father_name) = jsToLower (renderNull b.father_name)) :
    dedupKey a = dedupKey b := by
  unfold dedupKey
  rw [jsToLower_append, jsToLower_append, jsToLower_append, jsToLower_append,
    hf, hg]

/-- C5 (witness): records named "X"/"Y" and "x"/"y" agree after
lowercasing and indeed share the key "x_y". -/
theorem dedupKey_eq_of_lower_fields_eq_witness :
    (jsToLower (renderNull (some "X")) = jsToLower (renderNull (some "x")) ∧
        jsToLower (renderNull (some "Y")) = jsToLower (renderNull (some "y"))) ∧
      dedupKey { mkVoter 1 with full_name := some "X", father_name := some "Y" } =
        dedupKey { mkVoter 2 with full_name := some "x", father_name := some "y" } :=
  ⟨⟨by decide, by decide⟩,
    dedupKey_eq_of_lower_fields_eq _ _ (by decide) (by decide)⟩

/-- A record whose name fields hold the literal strings "null": its key
collides with the key of records whose name fields are SQL NULL,
because the template literal renders NULL as the string "null". -/
def literalNullNames : Voter :=
  { mkVoter 1 with full_name := some "null", father_name := some "null" }

/-- C10 (counterexample): in a snapshot whose records with both name
fields NULL are ids 2 and 3 (lowest id 2), the plan nevertheless marks
id 2, because the id-1 record with literal name strings "null" falls
into the same "null_null" group; so it is not true that every such
snapshot keeps the lowest-id all-null record. -/
theorem dedup_null_names_lowest_marked :
    (mkVoter 2).full_name = none ∧ (mkVoter 2).father_name = none ∧
      (mkVoter 3).full_name = none ∧ (mkVoter 3).father_name = none ∧
      (2 : Nat) ∈ dedupDeleteIds [literalNullNames, mkVoter 2, mkVoter 3] [] := by
  decide

/-- Marking lemma: on an id-ascending snapshot, a record preceded (by
id) by a key-sharing record is marked for deletion. -/
theorem dedup_marked_of_earlier (vs : List Voter)
    (hsorted : vs.Pairwise (fun a b => a.id < b.id)) (v w : Voter)
    (hv : v ∈ vs) (hw : w ∈ vs) (hkey : dedupKey w = dedupKey v)
    (hlt : w.id < v.id) : v.id ∈ dedupDeleteIds vs [] := by
  obtain ⟨pre, post, rfl⟩ := List.append_of_mem hv
  rw [dedupDeleteIds_mem]
  refine ⟨pre, v, post, rfl, rfl, Or.inr ?_⟩
  have hpw := List.pairwise_append.mp hsorted
  rcases List.mem_append.mp hw with h | h
  · exact List.mem_map.mpr ⟨w, h, hkey⟩
  · rcases List.mem_cons.mp h with rfl | h
    · omega
    · have : v.id < w.id := (List.pairwise_cons.mp hpw.2.1).1 w h
      omega

/-- C10 (amended): every record with both name fields NULL receives the
single key "null_null", and among the all-null records each one with a
smaller-id all-null companion is marked for deletion; so all but the
lowest-id all-null record are always deleted.  The lowest-id one is kept
unless some smaller-id record shares the key "null_null" for another
reason, e.g. literal name strings "null" (the counterexample). -/
theorem dedup_null_names_grouped (vs : List Voter)
    (hsorted : vs.Pairwise (fun a b => a.id < b.id)) :
    (∀ v ∈ vs, v.full_name = none → v.father_name = none →
        dedupKey v = "null_null") ∧
      ∀ v ∈ vs, v.full_name = none → v.father_name = none →
        (∃ w ∈ vs, w.full_name = none ∧ w.father_name = none ∧ w.id < v.id) →
        v.id ∈ dedupDeleteIds vs [] := by
  have hkey : ∀ v : Voter, v.full_name = none → v.father_name = none →
      dedupKey v = "null_null" := by
    intro v hfn hfa
    have : dedupKey v = jsTrim (jsToLower ("null" ++ "_" ++ "null")) := by
      simp [dedupKey, hfn, hfa, renderNull]
    rw [this]
    decide
  refine ⟨fun v _ hfn hfa => hkey v hfn hfa, ?_⟩
  rintro v hv hfn hfa ⟨w, hw, hwfn, hwfa, hlt⟩
  exact dedup_marked_of_earlier vs hsorted v w hv hw
    (by rw [hkey v hfn hfa, hkey w hwfn hwfa]) hlt

/-- C10 (witness): in the two-record all-null store the higher id 3 is
marked for deletion. -/
theorem dedup_null_names_grouped_witness :
    ([mkVoter 2, mkVoter 3].Pairwise (fun a b => a.id < b.id)) ∧
      (mkVoter 3).id ∈ dedupDeleteIds [mkVoter 2, mkVoter 3] [] :=
  ⟨by decide,
    (dedup_null_names_grouped [mkVoter 2, mkVoter 3] (by decide)).2
      (mkVoter 3) (by decide) rfl rfl
      ⟨mkVoter 2, by decide, rfl, rfl, by decide⟩⟩

/-- The update plan of fixRegisterNumbers (lines 162-206): the script
groups the id-ascending snapshot by raw register_number, skipping falsy
values (NULL and the empty string), keeps each group's first member and
schedules each later member at group position i (0-indexed; the kept
member is position 0) for the new value "<register_number>-<i>".  The
accumulator counts, per non-empty value, how many carriers have already
been scanned, so a record with c earlier carriers sits at group position
c.  The script emits updates group by group in object-key order rather
than scan order, but each record id receives at most one update and the
updates are applied independently by id, so the plan is a set of
(id, new value) pairs; this definition lists it in scan order. -/
def regUpdatesGo : List Voter → (String → Nat) → List (Nat × String)
  | [], _ => []
  | v :: rest, cnt =>
    match v.register_number with
    | none => regUpdatesGo rest cnt
    | some k =>
      if k = "" then regUpdatesGo rest cnt
      else
        let c := cnt k
        let cnt2 := fun s => if s = k then c + 1 else cnt s
        if c = 0 then regUpdatesGo rest cnt2
        else (v.id, k ++ "-" ++ Nat.repr c) :: regUpdatesGo rest cnt2

/-- The register-repair plan for a snapshot, with no value seen yet. -/
def regUpdates (vs : List Voter) : List (Nat × String) :=
  regUpdatesGo vs (fun _ => 0)

/-- Application of a register-number update plan with every per-row
update succeeding: each record whose id carries a scheduled update takes
its new register_number, all other records are unchanged. -/
def applyUpdates (vs : List Voter) (updates : List (Nat × String)) : List Voter :=
  vs.map (fun v =>
    match updates.find? (fun u => u.1 = v.id) with
    | some u => { v with register_number := some u.2 }
    | none => v)

example : regUpdates
    [{ mkVoter 1 with register_number := some "A" },
     { mkVoter 2 with register_number := some "A" },
     { mkVoter 3 with register_number := some "A" }] =
    [(2, "A-1"), (3, "A-2")] := by decide

/-- Every scheduled update targets the id of some snapshot record. -/
theorem regUpdatesGo_sub_ids (vs : List Voter) (cnt : String → Nat) :
    ∀ u ∈ regUpdatesGo vs cnt, u.1 ∈ vs.map Voter.id := by
  induction vs generalizing cnt with
  | nil => simp [regUpdatesGo]
  | cons v rest ih =>
    intro u hu
    simp only [List.map_cons, List.mem_cons]
    unfold regUpdatesGo at hu
    split at hu
    · exact Or.inr (ih cnt u hu)
    · split at hu
      · exact Or.inr (ih cnt u hu)
      · dsimp only at hu
        split at hu
        · exact Or.inr (ih _ u hu)
        · rcases List.mem_cons.mp hu with rfl | hu
          · exact Or.inl rfl
          · exact Or.inr (ih _ u hu)

/-- Dropping a plan entry that targets no id of the list leaves the
application unchanged. -/
theorem applyUpdates_cons_of_not_mem (vs : List Voter) (u : Nat × String)
    (us : List (Nat × String)) (h : u.1 ∉ vs.map Voter.id) :
    applyUpdates vs (u :: us) = applyUpdates vs us := by
  unfold applyUpdates
  apply List.map_congr_left
  intro v hv
  have hne : ¬ (u.1 = v.id) := by
    intro heq
    exact h (heq ▸ List.mem_map.mpr ⟨v, hv, rfl⟩)
  simp [List.find?_cons, hne]

/-- Unfolding equation for the plan on a cons cell, with the let
bindings of the source expanded. -/
theorem regUpdatesGo_cons (v : Voter) (rest : List Voter) (cnt : String → Nat) :
    regUpdatesGo (v :: rest) cnt =
      match v.register_number with
      | none => regUpdatesGo rest cnt
      | some k =>
        if k = "" then regUpdatesGo rest cnt
        else if cnt k = 0 then
          regUpdatesGo rest (fun s => if s = k then cnt k + 1 else cnt s)
        else (v.id, k ++ "-" ++ Nat.repr (cnt k)) ::
          regUpdatesGo rest (fun s => if s = k then cnt k + 1 else cnt s) := rfl

/-- Unfolding equation for plan application on a cons cell. -/
theorem applyUpdates_cons (vs : List Voter) (v : Voter) (P : List (Nat × String)) :
    applyUpdates (v :: vs) P =
      (match P.find? (fun u => u.1 = v.id) with
        | some u => { v with register_number := some u.2 }
        | none => v) :: applyUpdates vs P := rfl

/-- Core invariant of the register repair: scanning the snapshot with
`cnt` carrying the number of already-seen carriers per value, the
carriers of a fixed non-empty value k end up holding, in scan order, the
values determined by their running count c: the original k when c = 0
and "k-c" when c ≥ 1. -/
theorem regRepair_zip (k : String) (hk : k ≠ "") :
    ∀ (vs : List Voter) (cnt : String → Nat), (vs.map Voter.id).Nodup →
      ((vs.zip (applyUpdates vs (regUpdatesGo vs cnt))).filter
          (fun p => p.1.register_number = some k)).map
          (fun p => p.2.register_number)
        = (List.range ((vs.filter (fun v => v.register_number = some k)).length)).map
            (fun j => if cnt k + j = 0 then some k
              else some (k ++ "-" ++ Nat.repr (cnt k + j))) := by
  intro vs
  induction vs with
  | nil =>
    intro cnt _
    simp [applyUpdates]
  | cons v rest ih =>
    intro cnt hids
    have hvid : v.id ∉ rest.map Voter.id := by
      simp only [List.map_cons, List.nodup_cons] at hids
      exact hids.1
    have hids' : (rest.map Voter.id).Nodup := by
      simp only [List.map_cons, List.nodup_cons] at hids
      exact hids.2
    have hnone : ∀ cnt' : String → Nat,
        (regUpdatesGo rest cnt').find? (fun u => u.1 = v.id) = none := by
      intro cnt'
      rw [List.find?_eq_none]
      intro u hu
      simp only [decide_eq_true_eq]
      intro heq
      exact hvid (heq ▸ regUpdatesGo_sub_ids rest cnt' u hu)
    rcases hreg : v.register_number with _ | kv
    · -- NULL register number: falsy key, skipped, head unchanged
      have hplan : regUpdatesGo (v :: rest) cnt = regUpdatesGo rest cnt := by
        rw [regUpdatesGo_cons, hreg]
      have happ : applyUpdates (v :: rest) (regUpdatesGo (v :: rest) cnt) =
          v :: applyUpdates rest (regUpdatesGo rest cnt) := by
        rw [hplan, applyUpdates_cons, hnone cnt]
      rw [happ, List.zip_cons_cons, List.filter_cons_of_neg (by simp [hreg]),
        List.filter_cons_of_neg (by simp [hreg])]
      exact ih cnt hids'
    · by_cases hkv : kv = ""
      · -- empty-string register number: falsy key, skipped like NULL
        subst hkv
        have hplan : regUpdatesGo (v :: rest) cnt = regUpdatesGo rest cnt := by
          rw [regUpdatesGo_cons, hreg]
          simp
        have happ : applyUpdates (v :: rest) (regUpdatesGo (v :: rest) cnt) =
            v :: applyUpdates rest (regUpdatesGo rest cnt) := by
          rw [hplan, applyUpdates_cons, hnone cnt]
        have hvk : ¬ (v.register_number = some k) := by
          rw [hreg]
          intro h
          exact hk (Option.some.inj h).symm
        rw [happ, List.zip_cons_cons, List.filter_cons_of_neg (by simpa using hvk),
          List.filter_cons_of_neg (by simpa using hvk)]
        exact ih cnt hids'
      · by_cases hkk : kv = k
        · -- head carries the tracked value k
          subst hkk
          have hplan : regUpdatesGo (v :: rest) cnt =
              (if cnt kv = 0 then
                regUpdatesGo rest (fun s => if s = kv then cnt kv + 1 else cnt s)
              else (v.id, kv ++ "-" ++ Nat.repr (cnt kv)) ::
                regUpdatesGo rest (fun s => if s = kv then cnt kv + 1 else cnt s)) := by
            rw [regUpdatesGo_cons, hreg]
            simp [hkv]
          by_cases hc : cnt kv = 0
          · have happ : applyUpdates (v :: rest) (regUpdatesGo (v :: rest) cnt) =
                v :: applyUpdates rest
                  (regUpdatesGo rest (fun s => if s = kv then cnt kv + 1 else cnt s)) := by
              rw [hplan, if_pos hc, applyUpdates_cons, hnone _]
            rw [happ, List.zip_cons_cons,
              List.filter_cons_of_pos (by simp [hreg]),
              List.filter_cons_of_pos (by simp [hreg]),
              List.map_cons, List.length_cons, List.range_succ_eq_map,
              List.map_cons, List.map_map]
            congr 1
            · simp [hreg, hc]
            · rw [ih _ hids']
              apply List.map_congr_left
              intro j hj
              simp [Function.comp]
              rw [show cnt kv + 1 + j = cnt kv + (j + 1) from by omega]
          · have happ : applyUpdates (v :: rest) (regUpdatesGo (v :: rest) cnt) =
                { v with register_number := some (kv ++ "-" ++ Nat.repr (cnt kv)) } ::
                  applyUpdates rest
                    (regUpdatesGo rest (fun s => if s = kv then cnt kv + 1 else cnt s)) := by
              rw [hplan, if_neg hc, applyUpdates_cons,
                List.find?_cons_of_pos _ (by simp),
                applyUpdates_cons_of_not_mem rest _ _ (by simpa using hvid)]
            rw [happ, List.zip_cons_cons,
              List.filter_cons_of_pos (by simp [hreg]),
              List.filter_cons_of_pos (by simp [hreg]),
              List.map_cons, List.length_cons, List.range_succ_eq_map,
              List.map_cons, List.map_map]
            congr 1
            · simp [hc]
            · rw [ih _ hids']
              apply List.map_congr_left
              intro j hj
              simp [Function.comp]
              rw [show cnt kv + 1 + j = cnt kv + (j + 1) from by omega]
        · -- head carries a different non-empty value: outside the k-group
          have hplan : regUpdatesGo (v :: rest) cnt =
              (if cnt kv = 0 then
                regUpdatesGo rest (fun s => if s = kv then cnt kv + 1 else cnt s)
              else (v.id, kv ++ "-" ++ Nat.repr (cnt kv)) ::
                regUpdatesGo rest (fun s => if s = kv then cnt kv + 1 else cnt s)) := by
            rw [regUpdatesGo_cons, hreg]
            simp [hkv]
          have hvk : ¬ (v.register_number = some k) := by
            rw [hreg]
            intro h
            exact hkk (Option.some.inj h)
          have happ : ∃ hd : Voter,
              applyUpdates (v :: rest) (regUpdatesGo (v :: rest) cnt) =
                hd :: applyUpdates rest
                  (regUpdatesGo rest (fun s => if s = kv then cnt kv + 1 else cnt s)) := by
            by_cases hc : cnt kv = 0
            · exact ⟨v, by rw [hplan, if_pos hc, applyUpdates_cons, hnone _]⟩
            · refine ⟨{ v with register_number := some (kv ++ "-" ++ Nat.repr (cnt kv)) }, ?_⟩
              rw [hplan, if_neg hc, applyUpdates_cons,
                List.find?_cons_of_pos _ (by simp),
                applyUpdates_cons_of_not_mem rest _ _ (by simpa using hvid)]
          obtain ⟨hd, happeq⟩ := happ
          rw [happeq, List.zip_cons_cons,
            List.filter_cons_of_neg (by simpa using hvk),
            List.filter_cons_of_neg (by simpa using hvk),
            ih _ hids']
          apply List.map_congr_left
          intro j hj
          have hkk' : ¬ (k = kv) := fun h => hkk h.symm
          simp [hkk']

/-- First record of a colliding register pair: id 1, value "A". -/
def regDupA : Voter := { mkVoter 1 with register_number := some "A" }

/-- Second record of the colliding pair: id 2, also value "A". -/
def regDupB : Voter := { mkVoter 2 with register_number := some "A" }

/-- A record that already owns the value "A-1" that the repair will
assign to `regDupB`. -/
def regTakenSuffix : Voter := { mkVoter 3 with register_number := some "A-1" }

/-- C3 (counterexample): on the snapshot ["A", "A", "A-1"] the repair
renames the id-2 record to "A-1", which collides with the id-3 record's
existing value, so after applying the plan (all updates succeeding) the
multiset of non-null register numbers still contains a duplicate. -/
theorem regRepair_leaves_duplicate :
    ¬ (((applyUpdates [regDupA, regDupB, regTakenSuffix]
          (regUpdates [regDupA, regDupB, regTakenSuffix])).filterMap
        (fun v => v.register_number)).Nodup) := by
  decide

/-- C3 (amended): after the repair applies its plan with every update
succeeding, within each group of records sharing a non-empty original
register value k the member at group position 0 keeps k and the member
at position j ≥ 1 is assigned "k-j"; group positions follow ascending
id, so the lowest-id member is exactly the one that keeps its original
value, and each assigned value differs from k (so exactly one member per
group retains the original).  The assigned values are fresh only within
their group: an assigned "k-j" may equal a register value outside the
group, so the full multiset of non-null register values can still
contain duplicates (see the counterexample). -/
theorem fixRegisterNumbers_group_assignment (vs : List Voter) (k : String)
    (hk : k ≠ "") (hids : (vs.map Voter.id).Nodup)
    (hsorted : vs.Pairwise (fun a b => a.id < b.id)) :
    ((vs.zip (applyUpdates vs (regUpdates vs))).filter
        (fun p => p.1.register_number = some k)).map (fun p => p.2.register_number)
      = (List.range ((vs.filter (fun v => v.register_number = some k)).length)).map
          (fun j => if j = 0 then some k else some (k ++ "-" ++ Nat.repr j))
    ∧ (vs.filter (fun v => v.register_number = some k)).Pairwise
        (fun a b => a.id < b.id)
    ∧ ∀ j : Nat, j ≠ 0 → (k ++ "-" ++ Nat.repr j) ≠ k := by
  refine ⟨?_, ?_, ?_⟩
  · have h := regRepair_zip k hk vs (fun _ => 0) hids
    unfold regUpdates
    rw [h]
    apply List.map_congr_left
    intro j hj
    simp
  · exact hsorted.sublist (List.filter_sublist _)
  · intro j hj heq
    have hlen := congrArg String.length heq
    rw [String.length_append, String.length_append] at hlen
    have hone : ("-" : String).length = 1 := rfl
    omega

/-- C3 (witness): on the two-record colliding snapshot the repaired
values for group "A" are ["A", "A-1"], matching the position formula. -/
theorem fixRegisterNumbers_group_assignment_witness :
    (("A" : String) ≠ "") ∧ (([regDupA, regDupB].map Voter.id).Nodup) ∧
      ([regDupA, regDupB].Pairwise (fun a b => a.id < b.id)) ∧
      (([regDupA, regDupB].zip (applyUpdates [regDupA, regDupB]
          (regUpdates [regDupA, regDupB]))).filter
          (fun p => p.1.register_number = some "A")).map
          (fun p => p.2.register_number)
        = (List.range (([regDupA, regDupB].filter
            (fun v => v.register_number = some "A")).length)).map
            (fun j => if j = 0 then some "A" else some ("A" ++ "-" ++ Nat.repr j)) :=
  ⟨by decide, by decide, by decide,
    (fixRegisterNumbers_group_assignment [regDupA, regDupB] "A"
      (by decide) (by decide) (by decide)).1⟩

/-- A spreadsheet row as importData reads it: the cells at the fixed
columns L (external id), J (family) and U (classification); a missing
cell is `none`, mirroring the script's `cell ? cell.v : null`. -/
structure SheetRow where
  idCell : Option CellVal
  familyCell : Option CellVal
  classificationCell : Option CellVal
deriving DecidableEq, Repr

/-- Combined effect of `cell ? cell.v : null` followed by the script's
truthiness use of the value (`if (originalId && ...)`, `family || null`):
a missing cell and a falsy cell value (empty string, number 0) both act
as null. -/
def truthyOr : Option CellVal → Option CellVal
  | some cv => if cv.truthy then some cv else none
  | none => none

/-- Lookup in the Map built by `voterMap.set(voter.original_id, voter)`
over the snapshot in scan order: a later record with the same
original_id overwrites an earlier one, so lookup finds the last
occurrence.  Map keys use SameValueZero equality, so a string id never
matches a numeric one; records with a NULL original_id sit under the
null key and can never match a truthy row id. -/
def voterMapLookup (vs : List Voter) (k : CellVal) : Option Voter :=
  vs.reverse.find? (fun v => v.original_id = some k)

/-- An update emitted by the import matcher. -/
structure ImportUpdate where
  id : Nat
  family : Option CellVal
  classification : Option CellVal
deriving DecidableEq, Repr

/-- Result of the import row loop: the scheduled updates in row order
and the matched/unmatched counters. -/
structure ImportStats where
  updates : List ImportUpdate
  matched : Nat
  unmatched : Nat
deriving DecidableEq, Repr

/-- The row loop of importData (lines 60-88): a row with a truthy id
present in the lookup contributes an update (with falsy family and
classification cells mapped to null) and bumps `matched`; a row with a
truthy id absent from the lookup only bumps `unmatched`; a row with a
missing or falsy id is skipped entirely. -/
def processRows (vs : List Voter) : List SheetRow → ImportStats
  | [] => ⟨[], 0, 0⟩
  | r :: rest =>
    match truthyOr r.idCell with
    | none => processRows vs rest
    | some k =>
      match voterMapLookup vs k with
      | some voter =>
        ⟨⟨voter.id, truthyOr r.familyCell, truthyOr r.classificationCell⟩ ::
            (processRows vs rest).updates,
          (processRows vs rest).matched + 1, (processRows vs rest).unmatched⟩
      | none =>
        ⟨(processRows vs rest).updates, (processRows vs rest).matched,
          (processRows vs rest).unmatched + 1⟩

/-- Declarative per-row matcher: the update a single row should emit. -/
def rowUpdate (vs : List Voter) (r : SheetRow) : Option ImportUpdate :=
  match truthyOr r.idCell with
  | none => none
  | some k =>
    (voterMapLookup vs k).map
      (fun voter => ⟨voter.id, truthyOr r.familyCell, truthyOr r.classificationCell⟩)

/-- Declarative per-row unmatched test: a truthy id absent from the
lookup. -/
def rowUnmatched (vs : List Voter) (r : SheetRow) : Bool :=
  match truthyOr r.idCell with
  | none => false
  | some k => (voterMapLookup vs k).isNone

/-- A falsy-or-missing cell never yields the empty string (nor any
falsy value) after the `|| null` coercion. -/
theorem truthyOr_ne_empty (c : Option CellVal) :
    truthyOr c ≠ some (CellVal.s "") := by
  rcases c with _ | cv
  · simp [truthyOr]
  · by_cases h : cv.truthy
    · simp only [truthyOr, if_pos h]
      intro heq
      rw [Option.some_inj] at heq
      subst heq
      simp [CellVal.truthy] at h
    · simp [truthyOr, if_neg h]

/-- C7 (confirmed): the import matcher emits an update exactly for the
rows whose truthy (non-empty) external id is present in the original_id
lookup, with a falsy family or classification cell mapped to null and
never to the empty string; a row with a truthy id absent from the lookup
only increments the unmatched counter and contributes no update. -/
theorem importData_matcher (vs : List Voter) (rows : List SheetRow) :
    (processRows vs rows).updates = rows.filterMap (rowUpdate vs)
    ∧ (processRows vs rows).matched
        = (rows.filter (fun r => (rowUpdate vs r).isSome)).length
    ∧ (processRows vs rows).unmatched
        = (rows.filter (fun r => rowUnmatched vs r)).length
    ∧ ∀ u ∈ (processRows vs rows).updates,
        u.family ≠ some (CellVal.s "") ∧ u.classification ≠ some (CellVal.s "") := by
  induction rows with
  | nil => simp [processRows]
  | cons r rest ih =>
    obtain ⟨ih1, ih2, ih3, ih4⟩ := ih
    rcases hid : truthyOr r.idCell with _ | k
    · have hrow : rowUpdate vs r = none := by simp [rowUpdate, hid]
      have hrowu : rowUnmatched vs r = false := by simp [rowUnmatched, hid]
      refine ⟨?_, ?_, ?_, ?_⟩
      · simp [processRows, hid, hrow, ih1]
      · simp [processRows, hid, hrow, ih2]
      · simp [processRows, hid, hrowu, ih3]
      · intro u hu
        simp only [processRows, hid] at hu
        exact ih4 u hu
    · rcases hlook : voterMapLookup vs k with _ | voter
      · have hrow : rowUpdate vs r = none := by simp [rowUpdate, hid, hlook]
        have hrowu : rowUnmatched vs r = true := by simp [rowUnmatched, hid, hlook]
        refine ⟨?_, ?_, ?_, ?_⟩
        · simp [processRows, hid, hlook, hrow, ih1]
        · simp [processRows, hid, hlook, hrow, ih2]
        · simp [processRows, hid, hlook, hrowu, ih3]
        · intro u hu
          simp only [processRows, hid, hlook] at hu
          exact ih4 u hu
      · have hrow : rowUpdate vs r =
            some ⟨voter.id, truthyOr r.familyCell, truthyOr r.classificationCell⟩ := by
          simp [rowUpdate, hid, hlook]
        refine ⟨?_, ?_, ?_, ?_⟩
        · simp [processRows, hid, hlook, hrow, ih1]
        · simp [processRows, hid, hlook, hrow, ih2]
        · have hrowu : rowUnmatched vs r = false := by
            simp [rowUnmatched, hid, hlook]
          simp [processRows, hid, hlook, hrowu, ih3]
        · intro u hu
          simp only [processRows, hid, hlook, List.mem_cons] at hu
          rcases hu with rfl | hu
          · exact ⟨truthyOr_ne_empty _, truthyOr_ne_empty _⟩
          · exact ih4 u hu

/-- A store record carrying external id 10. -/
def importVoter : Voter := { mkVoter 7 with original_id := some (CellVal.n 10) }

/-- A row whose id 10 matches the store and whose family cell is the
empty string. -/
def matchedRow : SheetRow := ⟨some (CellVal.n 10), some (CellVal.s ""), none⟩

/-- A row whose id 11 matches nothing in the store. -/
def unmatchedRow : SheetRow :=
  ⟨some (CellVal.n 11), some (CellVal.s "F"), some (CellVal.s "C")⟩

/-- C7 (witness): the matcher on a one-voter store and a matched plus an
unmatched row. -/
theorem importData_matcher_witness :
    (processRows [importVoter] [matchedRow, unmatchedRow]).updates
        = [matchedRow, unmatchedRow].filterMap (rowUpdate [importVoter])
    ∧ (processRows [importVoter] [matchedRow, unmatchedRow]).matched
        = ([matchedRow, unmatchedRow].filter
            (fun r => (rowUpdate [importVoter] r).isSome)).length
    ∧ (processRows [importVoter] [matchedRow, unmatchedRow]).unmatched
        = ([matchedRow, unmatchedRow].filter
            (fun r => rowUnmatched [importVoter] r)).length
    ∧ ∀ u ∈ (processRows [importVoter] [matchedRow, unmatchedRow]).updates,
        u.family ≠ some (CellVal.s "") ∧ u.classification ≠ some (CellVal.s "") :=
  importData_matcher [importVoter] [matchedRow, unmatchedRow]

/-- An HTTP JSON response in the server's envelope: status code, the
`success` flag and the optional `error` message (the `data` payload is
irrelevant to the claims and omitted). -/
structure ApiResponse where
  status : Nat
  success : Bool
  error : Option String
deriving DecidableEq, Repr

/-- The PostgREST error message produced by supabase-js `.single()`
when the filter matches no row (error code PGRST116): `.single()`
rejects unless exactly one row comes back, so a missing id surfaces as
an error, never as a null row with no error. -/
def pgrstNoRows : String :=
  "JSON object requested, multiple (or no) rows returned"

/-- The store's answer to `select('*').eq('id', id).single()`, as the
(data, error) pair the handler destructures. -/
def singleById (vs : List Voter) (id : Nat) : Option Voter × Option String :=
  match vs.find? (fun v => v.id = id) with
  | some v => (some v, none)
  | none => (none, some pgrstNoRows)

/-- GET /api/voters/:id (server.js lines 118-139): `if (error) throw`
lands in the catch block as a 500 with the error message; only then
would `if (!data)` return the 404 "Voter not found"; a found row gives
200. -/
def getVoterById (vs : List Voter) (id : Nat) : ApiResponse :=
  match (singleById vs id).2 with
  | some e => ⟨500, false, some e⟩
  | none =>
    match (singleById vs id).1 with
    | none => ⟨404, false, some "Voter not found"⟩
    | some _ => ⟨200, true, none⟩

/-- C2 (code bug): a GET for an id absent from the store returns 500
with the PGRST116 message, not the 404 "Voter not found" the handler's
own dead branch (and the spec) intend: `.single()` reports zero matching
rows as an error, so the thrown error bypasses the `if (!data)` check. -/
theorem getVoterById_missing_id_500 :
    getVoterById [mkVoter 1] 999 = ⟨500, false, some pgrstNoRows⟩ ∧
      (getVoterById [mkVoter 1] 999).status ≠ 404 ∧
      (getVoterById [mkVoter 1] 999).error ≠ some "Voter not found" := by
  decide

/-- The store state after `update(fields).eq('id', id)` for the vote
endpoint: every row matching the id takes has_voted = true and the
request timestamp. -/
def applyVote (vs : List Voter) (id : Nat) (votedAt : String) : List Voter :=
  vs.map (fun v =>
    if v.id = id then { v with has_voted := true, voted_at := some votedAt } else v)

/-- The store state after the unvote endpoint's update: has_voted =
false and voted_at = NULL on the matching row. -/
def applyUnvote (vs : List Voter) (id : Nat) : List Voter :=
  vs.map (fun v =>
    if v.id = id then { v with has_voted := false, voted_at := none } else v)

/-- Outcome of the optional Google-Sheets mirror write: skipped when
`sheets && GOOGLE_SHEET_ID` is not configured, otherwise success or
failure of the write. -/
def sheetMirror (configured fails : Bool) : Except String Unit :=
  if configured then
    (if fails then Except.error "Sheets write failed" else Except.ok ())
  else Except.ok ()

/-- POST /api/voters/:id/vote (server.js lines 142-179): the update runs
first; `.select().single()` on the updated row decides the outcome (a
missing id means zero updated rows, hence the PGRST116 error and a 500);
the mirror write then runs inside its own try/catch whose failure is
only logged, so both of its outcomes produce the same 200 success
response.  `storeFails` models a store-level failure of the update
itself. -/
def voteRoute (vs : List Voter) (id : Nat) (votedAt : String)
    (storeFails sheetConfigured sheetFails : Bool) : ApiResponse × List Voter :=
  if storeFails then (⟨500, false, some "store error"⟩, vs)
  else
    match (applyVote vs id votedAt).find? (fun v => v.id = id) with
    | none => (⟨500, false, some pgrstNoRows⟩, applyVote vs id votedAt)
    | some _ =>
      match sheetMirror sheetConfigured sheetFails with
      | Except.ok _ => (⟨200, true, none⟩, applyVote vs id votedAt)
      | Except.error _ => (⟨200, true, none⟩, applyVote vs id votedAt)

/-- POST /api/voters/:id/unvote (server.js lines 182-216), same shape as
the vote endpoint with the resetting update. -/
def unvoteRoute (vs : List Voter) (id : Nat)
    (storeFails sheetConfigured sheetFails : Bool) : ApiResponse × List Voter :=
  if storeFails then (⟨500, false, some "store error"⟩, vs)
  else
    match (applyUnvote vs id).find? (fun v => v.id = id) with
    | none => (⟨500, false, some pgrstNoRows⟩, applyUnvote vs id)
    | some _ =>
      match sheetMirror sheetConfigured sheetFails with
      | Except.ok _ => (⟨200, true, none⟩, applyUnvote vs id)
      | Except.error _ => (⟨200, true, none⟩, applyUnvote vs id)

/-- The vote update commutes with the id search: searching the updated
store finds exactly the updated image of the original row. -/
theorem applyVote_find_eq (vs : List Voter) (id : Nat) (t : String) :
    (applyVote vs id t).find? (fun v => v.id = id)
      = (vs.find? (fun v => v.id = id)).map
          (fun v => { v with has_voted := true, voted_at := some t }) := by
  have hpf : ((fun v : Voter => decide (v.id = id)) ∘
      (fun v : Voter =>
        if v.id = id then { v with has_voted := true, voted_at := some t } else v))
      = fun v : Voter => decide (v.id = id) := by
    funext v
    by_cases h : v.id = id <;> simp [Function.comp, h]
  rcases hfind : vs.find? (fun v => v.id = id) with _ | v
  · rw [applyVote, List.find?_map, hpf, hfind]
    rfl
  · have hv : v.id = id := by simpa using List.find?_some hfind
    rw [applyVote, List.find?_map, hpf, hfind]
    simp [hv]

/-- The unvote update commutes with the id search likewise. -/
theorem applyUnvote_find_eq (vs : List Voter) (id : Nat) :
    (applyUnvote vs id).find? (fun v => v.id = id)
      = (vs.find? (fun v => v.id = id)).map
          (fun v => { v with has_voted := false, voted_at := none }) := by
  have hpf : ((fun v : Voter => decide (v.id = id)) ∘
      (fun v : Voter =>
        if v.id = id then { v with has_voted := false, voted_at := none } else v))
      = fun v : Voter => decide (v.id = id) := by
    funext v
    by_cases h : v.id = id <;> simp [Function.comp, h]
  rcases hfind : vs.find? (fun v => v.id = id) with _ | v
  · rw [applyUnvote, List.find?_map, hpf, hfind]
    rfl
  · have hv : v.id = id := by simpa using List.find?_some hfind
    rw [applyUnvote, List.find?_map, hpf, hfind]
    simp [hv]

/-- C8 (confirmed): on an existing voter id, the vote endpoint responds
success and leaves the matching row with has_voted = true and the
non-null request timestamp in voted_at; the unvote endpoint responds
success and resets the row to has_voted = false and voted_at = NULL;
and for both endpoints the response is the same whatever the mirror
write's configuration and outcome, so an unconfigured or failing
spreadsheet mirror never changes the HTTP success status. -/
theorem vote_unvote_fields_and_mirror_isolation (vs : List Voter) (id : Nat)
    (votedAt : String) (sc sf : Bool)
    (hex : (vs.find? (fun v => v.id = id)).isSome) :
    (voteRoute vs id votedAt false sc sf).1 = ⟨200, true, none⟩
    ∧ (unvoteRoute vs id false sc sf).1 = ⟨200, true, none⟩
    ∧ (∀ w ∈ (voteRoute vs id votedAt false sc sf).2, w.id = id →
        w.has_voted = true ∧ w.voted_at = some votedAt)
    ∧ (∀ w ∈ (unvoteRoute vs id false sc sf).2, w.id = id →
        w.has_voted = false ∧ w.voted_at = none)
    ∧ (∀ sc' sf' : Bool,
        (voteRoute vs id votedAt false sc' sf').1
            = (voteRoute vs id votedAt false sc sf).1
          ∧ (unvoteRoute vs id false sc' sf').1
            = (unvoteRoute vs id false sc sf).1) := by
  obtain ⟨v, hv⟩ := Option.isSome_iff_exists.mp hex
  have hfv : (applyVote vs id votedAt).find? (fun w => w.id = id)
      = some { v with has_voted := true, voted_at := some votedAt } := by
    rw [applyVote_find_eq, hv]
    rfl
  have hfu : (applyUnvote vs id).find? (fun w => w.id = id)
      = some { v with has_voted := false, voted_at := none } := by
    rw [applyUnvote_find_eq, hv]
    rfl
  have hvr : ∀ sc' sf' : Bool, voteRoute vs id votedAt false sc' sf'
      = (⟨200, true, none⟩, applyVote vs id votedAt) := by
    intro sc' sf'
    cases hsm : sheetMirror sc' sf' with
    | ok u => simp [voteRoute, hfv, hsm]
    | error e => simp [voteRoute, hfv, hsm]
  have hur : ∀ sc' sf' : Bool, unvoteRoute vs id false sc' sf'
      = (⟨200, true, none⟩, applyUnvote vs id) := by
    intro sc' sf'
    cases hsm : sheetMirror sc' sf' with
    | ok u => simp [unvoteRoute, hfu, hsm]
    | error e => simp [unvoteRoute, hfu, hsm]
  refine ⟨by rw [hvr], by rw [hur], ?_, ?_, fun sc' sf' => ⟨by rw [hvr, hvr], by rw [hur, hur]⟩⟩
  · intro w hw hwid
    rw [hvr] at hw
    obtain ⟨u, hu, rfl⟩ := List.mem_map.mp hw
    by_cases h : u.id = id
    · simp [h]
    · rw [if_neg h] at hwid
      exact absurd hwid h
  · intro w hw hwid
    rw [hur] at hw
    obtain ⟨u, hu, rfl⟩ := List.mem_map.mp hw
    by_cases h : u.id = id
    · simp [h]
    · rw [if_neg h] at hwid
      exact absurd hwid h

/-- C8 (witness): a one-record store with id 5 — voting marks the row
and unvoting resets it, with the mirror parameters immaterial. -/
theorem vote_unvote_fields_and_mirror_isolation_witness :
    (([mkVoter 5].find? (fun v => v.id = 5)).isSome)
    ∧ (voteRoute [mkVoter 5] 5 "2026-10-11T00:00:00.000Z" false false false).1
        = ⟨200, true, none⟩ :=
  ⟨by decide,
    (vote_unvote_fields_and_mirror_isolation [mkVoter 5] 5
      "2026-10-11T00:00:00.000Z" false false (by decide)).1⟩

/-- C9 (counterexample): against a store that bounds results at 1 row
per call, the register-number repair's single unranged select loads only
the first record of a two-record table, so it does not load the full
snapshot for every table size; the paginated fetch used by the other two
procedures does. -/
theorem fixRegisterNumbers_snapshot_truncated :
    singleFetchAll [mkVoter 1, mkVoter 2] 1 ≠ [mkVoter 1, mkVoter 2] ∧
      (fetchPages [mkVoter 1, mkVoter 2] pageSize 0).1 = [mkVoter 1, mkVoter 2] := by
  constructor
  · decide
  · simpa using
      (fetchPages_spec [mkVoter 1, mkVoter 2] pageSize 0 (by norm_num [pageSize])).1

/-- C9 (amended): the deduplication and import procedures load the full
snapshot through the offset-pagination loop for every table size; the
register-number repair issues one unranged select and therefore holds
the full snapshot only when the table size does not exceed the store's
per-call result bound. -/
theorem reconciliation_snapshot_loading (vs : List Voter) (B : Nat) :
    (fetchPages vs pageSize 0).1 = vs
    ∧ (vs.length ≤ B → singleFetchAll vs B = vs) := by
  refine ⟨by simpa using
    (fetchPages_spec vs pageSize 0 (by norm_num [pageSize])).1, ?_⟩
  intro h
  exact List.take_of_length_le h

/-- C9 (witness): a one-record table within a bound of 2 is loaded in
full by the single select, and by the pagination loop. -/
theorem reconciliation_snapshot_loading_witness :
    ([mkVoter 1].length ≤ 2) ∧ singleFetchAll [mkVoter 1] 2 = [mkVoter 1] :=
  ⟨by decide, (reconciliation_snapshot_loading [mkVoter 1] 2).2 (by decide)⟩
